import Mathlib

/-!
Verification of the technician itinerary optimization engine of the
Human-Centred-Dispatch-Orchestrator repository, together with the
itinerary client component `frontend/src/components/TechnicianItinerary.jsx`.

The engine itself (Distance/Time Model, Route Sequencer,
Arrival/Departure Propagator) lives in the Django backend, which is not
part of the source excerpt; those components are modelled from the spec
(each such definition carries a doc comment starting `Modelled from the
spec:`).  The client component is embedded directly from the source.
-/

deriving instance DecidableEq for Except

namespace Dispatch

/-- A coordinate pair (latitude/longitude), with rational components. -/
structure Coord where
  lat : ℚ
  lon : ℚ
deriving DecidableEq, Repr

/-- Modelled from the spec: §3 Data Model, `Stop` — one scheduled visit.
`coordinates` is optional (absence means the stop cannot be placed in a
route); `window_start`/`window_end` are an optional service time window;
`service_duration` is the estimated time spent at the stop;
`customer_name` is descriptive only, carried through unchanged. -/
structure Stop where
  job_id : ℕ
  customer_name : String
  coordinates : Option Coord
  window_start : Option ℚ
  window_end : Option ℚ
  service_duration : ℚ
deriving DecidableEq, Repr

/-- Modelled from the spec: §7 error taxonomy of the engine
(`InvalidSpeed`, `MissingCoordinate`, `DuplicateStopId`). -/
inductive EngineError where
  | InvalidSpeed
  | MissingCoordinate
  | DuplicateStopId
deriving DecidableEq, Repr

/-- Absolute value on ℚ, written with an explicit branch. -/
def absQ (x : ℚ) : ℚ := if x < 0 then -x else x

/-- Modelled from the spec: §4.1 Distance/Time Model — the planar
approximation of the distance between two coordinates.  The spec fixes
only that the distance function is deterministic and symmetric
("great-circle or planar approximation"); we use the L1 planar
approximation, which is both. -/
def dist (a b : Coord) : ℚ :=
  absQ (a.lat - b.lat) + absQ (a.lon - b.lon)

/-- Modelled from the spec: §4.1 `travelTime(pointA, pointB, speed) ->
(distance, duration)`; `InvalidSpeed` if speed ≤ 0, `MissingCoordinate`
when either point lacks coordinates, otherwise distance together with
duration = distance / speed. -/
def travelTime (a b : Option Coord) (speed : ℚ) : Except EngineError (ℚ × ℚ) :=
  if speed ≤ 0 then .error .InvalidSpeed
  else
    match a, b with
    | some pa, some pb => .ok (dist pa pb, dist pa pb / speed)
    | _, _ => .error .MissingCoordinate

/-- The coordinates of a stop, defaulting to the origin; the sequencer
only runs after validation has established that every stop has
coordinates, so the default is never reached on engine inputs. -/
def stopCoord (s : Stop) : Coord :=
  s.coordinates.getD ⟨0, 0⟩

/-- The sequencing key of a stop from a position: its distance from that
position (for any fixed positive speed, minimising travel duration is
the same as minimising this distance). -/
def stopKey (pos : Coord) (s : Stop) : ℚ :=
  dist pos (stopCoord s)

/-- Modelled from the spec: §4.2 Nearest-Neighbor Heuristic, selection
step — from the candidates `s :: ts` pick the stop with minimum
`travelTime` from `pos`, ties broken by input order, returning the
chosen stop and the remaining stops in input order. -/
def nnPick (pos : Coord) (s : Stop) : List Stop → Stop × List Stop
  | [] => (s, [])
  | t :: ts =>
    let p := nnPick pos t ts
    if stopKey pos p.1 < stopKey pos s then (p.1, s :: p.2) else (s, t :: ts)

/-- Fuel-indexed worker for the nearest-neighbor route: repeatedly picks
the nearest remaining stop and moves the current position there. -/
def nnRouteAux : ℕ → Coord → List Stop → List Stop
  | 0, _, _ => []
  | _ + 1, _, [] => []
  | n + 1, pos, s :: ss =>
    (nnPick pos s ss).1 ::
      nnRouteAux n (stopCoord (nnPick pos s ss).1) (nnPick pos s ss).2

/-- Modelled from the spec: §4.2 Nearest-Neighbor Heuristic — repeatedly
selects, from the remaining unvisited stops, the one with minimum
`travelTime` from the current position (starting at `start`); ties
broken by input order. -/
def nnRoute (start : Coord) (stops : List Stop) : List Stop :=
  nnRouteAux stops.length start stops

/-- Modelled from the spec: §4.2 Optimal Solver mapping — map the
permutation of indices returned by the external solver back to Stop
objects, validating the permutation post-condition; `none` when the
solver's output is not a permutation of the indices. -/
def applyPerm (stops : List Stop) (perm : List ℕ) : Option (List Stop) :=
  if perm.Perm (List.range stops.length) then
    some (perm.map (fun i => stops.getD i ⟨0, "", none, none, none, 0⟩))
  else none

/-- Strategy selector of the Route Sequencer: nearest-neighbor heuristic
or the external optimal solver. -/
inductive Strategy where
  | nearest
  | optimal
deriving DecidableEq, Repr

/-- Result of the Route Sequencer: the ordered stops and a marker for
which strategy actually executed (`algorithm_used`). -/
structure SeqResult where
  stops : List Stop
  algorithm_used : String
deriving DecidableEq, Repr

/-- Modelled from the spec: §4.2 strategy dispatch — the external solver
is a pluggable capability; `none` models solver unavailable / error /
timeout (§5 says callers treat timeout as unavailable).  On solver
failure, or when the solver's output fails the permutation
post-condition, the engine falls back to the Nearest-Neighbor Heuristic
and marks the result `algorithm_used = "nearest"`. -/
def runStrategy (stops : List Stop) (start : Coord) (strategy : Strategy)
    (solver : Option (List ℕ)) : SeqResult :=
  match strategy with
  | .nearest => ⟨nnRoute start stops, "nearest"⟩
  | .optimal =>
    match solver with
    | none => ⟨nnRoute start stops, "nearest"⟩
    | some perm =>
      match applyPerm stops perm with
      | some ordered => ⟨ordered, "optimal"⟩
      | none => ⟨nnRoute start stops, "nearest"⟩

/-- Modelled from the spec: §4.2 Route Sequencer contract
`sequence(stops, start, strategy)` with the §7 validations — stops
lacking coordinates are surfaced as `MissingCoordinate` (not silently
dropped) and duplicate `job_id`s are rejected as `DuplicateStopId`. -/
def sequence (stops : List Stop) (start : Coord) (strategy : Strategy)
    (solver : Option (List ℕ)) : Except EngineError SeqResult :=
  if stops.any (fun s => s.coordinates.isNone) then .error .MissingCoordinate
  else if ¬ (stops.map Stop.job_id).Nodup then .error .DuplicateStopId
  else .ok (runStrategy stops start strategy solver)

/-- A stop of a computed Sequence: the input stop's identity data plus
the derived `arrival_time`, `departure_time`, `distance_from_previous`
and `travel_duration` (§3, §6). -/
structure TimedStop where
  job_id : ℕ
  customer_name : String
  coordinates : Coord
  window_end : Option ℚ
  distance_from_previous : ℚ
  travel_duration : ℚ
  arrival_time : ℚ
  departure_time : ℚ
deriving DecidableEq, Repr

/-- Modelled from the spec: §3 `Violation` policy applied per stop —
record the `job_id` of every stop whose `window_end` is present and
whose `arrival_time` is strictly after it; no violation for missing
windows. -/
def violationsOf (l : List TimedStop) : List ℕ :=
  l.filterMap (fun ts =>
    match ts.window_end with
    | some T => if T < ts.arrival_time then some ts.job_id else none
    | none => none)

/-- Modelled from the spec: §3 `Sequence` — ordered stops with computed
timing, the Sequence's violations, and its aggregate travel
distance/time. -/
structure Sequence where
  stops : List TimedStop
  violations : List ℕ
  total_travel_distance : ℚ
  total_travel_time : ℚ
deriving DecidableEq, Repr

/-- Modelled from the spec: §4.3 propagation walk — maintains the
current position and current time; for each stop computes
`(distance, travelDuration) = travelTime(currentPosition,
stop.coordinates, speed)`, `arrival_time = currentTime +
travelDuration`, `departure_time = arrival_time +
stop.service_duration`, then advances the state; a stop without
coordinates at this stage is a `MissingCoordinate` error. -/
def propagateGo (v : ℚ) : Coord → ℚ → List Stop → Except EngineError (List TimedStop)
  | _, _, [] => .ok []
  | pos, t, s :: ss =>
    match s.coordinates with
    | none => .error .MissingCoordinate
    | some c =>
      match propagateGo v c (t + dist pos c / v + s.service_duration) ss with
      | .error e => .error e
      | .ok rest =>
        .ok ({ job_id := s.job_id
               customer_name := s.customer_name
               coordinates := c
               window_end := s.window_end
               distance_from_previous := dist pos c
               travel_duration := dist pos c / v
               arrival_time := t + dist pos c / v
               departure_time := t + dist pos c / v + s.service_duration } :: rest)

/-- Modelled from the spec: §4.3 Arrival/Departure Propagator contract
`propagate(orderedStops, start, startTime, speed) -> Sequence`, with the
§7 `InvalidSpeed` rejection (speed ≤ 0) before any computation
begins. -/
def propagate (stops : List Stop) (start : Coord) (startTime speed : ℚ) :
    Except EngineError Sequence :=
  if speed ≤ 0 then .error .InvalidSpeed
  else
    match propagateGo speed start startTime stops with
    | .error e => .error e
    | .ok l =>
      .ok { stops := l
            violations := violationsOf l
            total_travel_distance := (l.map TimedStop.distance_from_previous).sum
            total_travel_time := (l.map TimedStop.travel_duration).sum }

/-- Combined engine result: the two Sequences plus the marker for the
algorithm that actually ran. -/
structure ItineraryResult where
  current : Sequence
  optimized : Sequence
  algorithm_used : String
deriving DecidableEq, Repr

/-- Modelled from the spec: §2 control flow — validate the speed before
any computation begins (§7), run the Route Sequencer to obtain the
optimized order, and pass both the as-assigned order and the optimized
order through the Arrival/Departure Propagator. -/
def computeItinerary (stops : List Stop) (start : Coord) (startTime speed : ℚ)
    (strategy : Strategy) (solver : Option (List ℕ)) :
    Except EngineError ItineraryResult :=
  if speed ≤ 0 then .error .InvalidSpeed
  else
    match sequence stops start strategy solver with
    | .error e => .error e
    | .ok seqd =>
      match propagate stops start startTime speed with
      | .error e => .error e
      | .ok cur =>
        match propagate seqd.stops start startTime speed with
        | .error e => .error e
        | .ok opt => .ok ⟨cur, opt, seqd.algorithm_used⟩

/-- Default stop, used as the `getD` default when indexing stop lists in
statements; engine inputs are only ever indexed within bounds. -/
def stop0 : Stop := ⟨0, "", none, none, none, 0⟩

/-- Default timed stop, used as the `getD` default when indexing
computed Sequences in statements. -/
def ts0 : TimedStop := ⟨0, "", ⟨0, 0⟩, none, 0, 0, 0, 0⟩

/-- A concrete depot coordinate for instantiating the theorems. -/
def depot : Coord := ⟨0, 0⟩

/-- A concrete stop with a service window, 2 distance units from the
depot. -/
def stopA : Stop := ⟨1, "Alice", some ⟨0, 2⟩, some 0, some 1, 1⟩

/-- A concrete stop without a window, 1 distance unit from the depot. -/
def stopB : Stop := ⟨2, "Bob", some ⟨0, 1⟩, none, none, 2⟩

/-- The Sequence computed by `propagate [stopA, stopB] depot 0 1`: the
first stop arrives at 2, after its window end 1, so job 1 is in
violation. -/
def qAB : Sequence :=
  ⟨[⟨1, "Alice", ⟨0, 2⟩, some 1, 2, 2, 2, 3⟩,
    ⟨2, "Bob", ⟨0, 1⟩, none, 1, 1, 4, 6⟩], [1], 3, 3⟩

/-! Client component, embedded from
`frontend/src/components/TechnicianItinerary.jsx`. -/

/-- `TechnicianItinerary.jsx` line 18: `const DEFAULT_SPEED = 40;`. -/
def DEFAULT_SPEED : ℚ := 40

/-- `TechnicianItinerary.jsx` line 321: the speed input's onChange
handler `setSpeed(Number(e.target.value) || DEFAULT_SPEED)`.  The JS
number `Number(e.target.value)` is modelled as `Option ℚ` with `none`
for NaN; `||` substitutes the default exactly on the falsy values NaN
and 0. -/
def onChangeSpeed (n : Option ℚ) : ℚ :=
  match n with
  | none => DEFAULT_SPEED
  | some x => if x = 0 then DEFAULT_SPEED else x

/-- The query parameters of the itinerary request, as assembled by
`buildUrl` (`TechnicianItinerary.jsx` lines 122-130); URLSearchParams
serialisation is elided, the parameter values are kept. -/
structure ItineraryRequest where
  speed_kmph : ℚ
  algorithm : String
  use_ortools : Bool
  use_cache : Bool
  force : Bool
deriving DecidableEq, Repr

/-- `TechnicianItinerary.jsx` lines 122-130 (`buildUrl`): sets
`speed_kmph` to `speed || DEFAULT_SPEED`, `algorithm` to the algorithm
state, `use_ortools=true` exactly when the algorithm is `"ortools"`,
`use_cache` from the checkbox, and `force` only when the toggle is
set. -/
def buildRequest (speed : ℚ) (algorithm : String) (useCache forceToggle : Bool) :
    ItineraryRequest :=
  { speed_kmph := if speed = 0 then DEFAULT_SPEED else speed
    algorithm := algorithm
    use_ortools := algorithm = "ortools"
    use_cache := useCache
    force := forceToggle }

/-- The algorithm values the component can put in the request: the
initial state `useState("nearest")` (line 88) and the two buttons'
`applyAlgorithm("nearest")` / `applyAlgorithm("ortools")` calls
(lines 256 and 263). -/
def algorithmOptions : List String := ["nearest", "ortools"]

/-- The per-stop fields of the response consumed by the stop-list
rendering (`TechnicianItinerary.jsx` lines 386-393): `job_id`,
`customer_name`, `lat`, `lon`, `arrival_iso`, `departure_iso`,
`distance_from_prev_km`. -/
structure ClientStop where
  job_id : ℕ
  customer_name : String
  lat : Option ℚ
  lon : Option ℚ
  arrival_iso : String
  departure_iso : String
  distance_from_prev_km : Option ℚ
deriving DecidableEq, Repr

/-! Helper lemmas. -/

theorem absQ_eq_abs (x : ℚ) : absQ x = |x| := by
  unfold absQ
  split
  · rw [abs_of_neg (by assumption)]
  · rw [abs_of_nonneg (not_lt.mp (by assumption))]

theorem dist_symm (a b : Coord) : dist a b = dist b a := by
  unfold dist
  rw [absQ_eq_abs, absQ_eq_abs, absQ_eq_abs, absQ_eq_abs,
    abs_sub_comm a.lat b.lat, abs_sub_comm a.lon b.lon]

theorem range_map_getD {α : Type} (l : List α) (d : α) :
    (List.range l.length).map (fun i => l.getD i d) = l := by
  induction l with
  | nil => simp
  | cons a t ih =>
    rw [List.length_cons, List.range_succ_eq_map, List.map_cons, List.map_map]
    simp only [List.getD_cons_zero, Function.comp_def, List.getD_cons_succ]
    rw [ih]

theorem nnPick_length (pos : Coord) (s : Stop) (ts : List Stop) :
    ((nnPick pos s ts).2).length = ts.length := by
  induction ts generalizing s with
  | nil => rfl
  | cons t ts ih =>
    simp only [nnPick]
    split
    · simp [ih t]
    · simp

theorem nnPick_perm (pos : Coord) (s : Stop) (ts : List Stop) :
    List.Perm ((nnPick pos s ts).1 :: (nnPick pos s ts).2) (s :: ts) := by
  induction ts generalizing s with
  | nil => rfl
  | cons t ts ih =>
    simp only [nnPick]
    split
    · exact (List.Perm.swap s _ _).trans ((ih t).cons s)
    · rfl

theorem nnPick_min (pos : Coord) (s : Stop) (ts : List Stop) :
    ∀ x ∈ s :: ts, stopKey pos (nnPick pos s ts).1 ≤ stopKey pos x := by
  induction ts generalizing s with
  | nil => intro x hx; simp at hx; simp [nnPick, hx]
  | cons t ts ih =>
    intro x hx
    simp only [nnPick]
    split
    · rcases List.mem_cons.mp hx with h | h
      · exact le_of_lt (lt_of_lt_of_le (by assumption) (by simp [h]))
      · exact ih t x h
    · rcases List.mem_cons.mp hx with h | h
      · simp [h]
      · exact le_trans (not_lt.mp (by assumption)) (ih t x h)

theorem nnPick_first (pos : Coord) (s : Stop) (ts : List Stop) :
    ∃ pre post, s :: ts = pre ++ (nnPick pos s ts).1 :: post ∧
      (nnPick pos s ts).2 = pre ++ post ∧
      ∀ x ∈ pre, stopKey pos (nnPick pos s ts).1 < stopKey pos x := by
  induction ts generalizing s with
  | nil => exact ⟨[], [], rfl, rfl, by simp⟩
  | cons t ts ih =>
    simp only [nnPick]
    split
    · obtain ⟨pre, post, h1, h2, h3⟩ := ih t
      refine ⟨s :: pre, post, by rw [List.cons_append, ← h1], by rw [h2]; rfl, ?_⟩
      intro x hx
      rcases List.mem_cons.mp hx with h | h
      · subst h; assumption
      · exact h3 x h
    · exact ⟨[], t :: ts, rfl, rfl, by simp⟩

theorem nnRoute_cons (pos : Coord) (s : Stop) (ss : List Stop) :
    nnRoute pos (s :: ss) =
      (nnPick pos s ss).1 ::
        nnRoute (stopCoord (nnPick pos s ss).1) (nnPick pos s ss).2 := by
  unfold nnRoute
  rw [List.length_cons, nnRouteAux, nnPick_length]

theorem nnRoute_perm_aux (n : ℕ) :
    ∀ (pos : Coord) (l : List Stop), l.length = n → (nnRoute pos l).Perm l := by
  induction n with
  | zero =>
    intro pos l h
    rw [List.length_eq_zero] at h
    subst h
    rfl
  | succ n ih =>
    intro pos l h
    match l with
    | s :: ss =>
      rw [nnRoute_cons]
      have hr : (nnPick pos s ss).2.length = n := by
        rw [nnPick_length]
        exact Nat.succ_injective h
      exact ((ih _ _ hr).cons _).trans (nnPick_perm pos s ss)

theorem nnRoute_perm (pos : Coord) (l : List Stop) : (nnRoute pos l).Perm l :=
  nnRoute_perm_aux l.length pos l rfl

theorem applyPerm_perm (stops : List Stop) (p : List ℕ) (out : List Stop)
    (h : applyPerm stops p = some out) : out.Perm stops := by
  unfold applyPerm at h
  split at h
  · cases h
    have h1 : List.Perm (p.map (fun i => stops.getD i ⟨0, "", none, none, none, 0⟩))
        ((List.range stops.length).map (fun i => stops.getD i ⟨0, "", none, none, none, 0⟩)) :=
      List.Perm.map _ (by assumption)
    rw [range_map_getD] at h1
    exact h1
  · cases h

theorem runStrategy_perm (stops : List Stop) (start : Coord) (strategy : Strategy)
    (solver : Option (List ℕ)) : ((runStrategy stops start strategy solver).stops).Perm stops := by
  unfold runStrategy
  cases strategy with
  | nearest => exact nnRoute_perm start stops
  | optimal =>
    cases solver with
    | none => exact nnRoute_perm start stops
    | some p =>
      cases hp : applyPerm stops p with
      | none => simp only [hp]; exact nnRoute_perm start stops
      | some out => simp only [hp]; exact applyPerm_perm stops p out hp

theorem propagateGo_map_job_id (v : ℚ) (stops : List Stop) :
    ∀ (pos : Coord) (t : ℚ) (out : List TimedStop),
      propagateGo v pos t stops = .ok out →
      out.map TimedStop.job_id = stops.map Stop.job_id := by
  induction stops with
  | nil => intro pos t out h; simp only [propagateGo] at h; cases h; rfl
  | cons s ss ih =>
    intro pos t out h
    cases hc : s.coordinates with
    | none => simp only [propagateGo, hc] at h; cases h
    | some c =>
      simp only [propagateGo, hc] at h
      cases hrec : propagateGo v c (t + dist pos c / v + s.service_duration) ss with
      | error e => simp only [hrec] at h; cases h
      | ok rest =>
        simp only [hrec] at h
        cases h
        simp only [List.map_cons]
        rw [ih _ _ _ hrec]

theorem propagateGo_length (v : ℚ) (stops : List Stop) (pos : Coord) (t : ℚ)
    (out : List TimedStop) (h : propagateGo v pos t stops = .ok out) :
    out.length = stops.length := by
  have hmap := propagateGo_map_job_id v stops pos t out h
  have h1 : (out.map TimedStop.job_id).length = (stops.map Stop.job_id).length := by rw [hmap]
  simpa using h1

theorem propagateGo_error_missing (v : ℚ) (stops : List Stop) :
    ∀ (pos : Coord) (t : ℚ) (e : EngineError),
      propagateGo v pos t stops = .error e → e = .MissingCoordinate := by
  induction stops with
  | nil => intro pos t e h; simp only [propagateGo] at h; cases h
  | cons s ss ih =>
    intro pos t e h
    cases hc : s.coordinates with
    | none => simp only [propagateGo, hc] at h; cases h; rfl
    | some c =>
      simp only [propagateGo, hc] at h
      cases hrec : propagateGo v c (t + dist pos c / v + s.service_duration) ss with
      | error e2 => simp only [hrec] at h; cases h; exact ih _ _ _ hrec
      | ok rest => simp only [hrec] at h; cases h

theorem propagateGo_ok_of_coords (v : ℚ) (stops : List Stop)
    (hall : ∀ s ∈ stops, s.coordinates.isSome) :
    ∀ (pos : Coord) (t : ℚ), ∃ out, propagateGo v pos t stops = .ok out := by
  induction stops with
  | nil => intro pos t; exact ⟨[], rfl⟩
  | cons s ss ih =>
    intro pos t
    have hs : s.coordinates.isSome := hall s (List.mem_cons_self s ss)
    cases hc : s.coordinates with
    | none => rw [hc] at hs; cases hs
    | some c =>
      obtain ⟨rest, hrest⟩ := ih (fun x hx => hall x (List.mem_cons_of_mem s hx)) c
        (t + dist pos c / v + s.service_duration)
      simp only [propagateGo, hc, hrest]
      exact ⟨_, rfl⟩

theorem propagateGo_spec (v : ℚ) (stops : List Stop) :
    ∀ (pos : Coord) (t : ℚ) (out : List TimedStop),
      propagateGo v pos t stops = .ok out →
      ∀ i, i < stops.length →
        (stops.getD i stop0).coordinates = some ((out.getD i ts0).coordinates) ∧
        (out.getD i ts0).job_id = (stops.getD i stop0).job_id ∧
        (out.getD i ts0).customer_name = (stops.getD i stop0).customer_name ∧
        (out.getD i ts0).window_end = (stops.getD i stop0).window_end ∧
        (out.getD i ts0).distance_from_previous =
          dist (if i = 0 then pos else (out.getD (i - 1) ts0).coordinates)
            ((out.getD i ts0).coordinates) ∧
        (out.getD i ts0).travel_duration = (out.getD i ts0).distance_from_previous / v ∧
        (out.getD i ts0).arrival_time =
          (if i = 0 then t else (out.getD (i - 1) ts0).departure_time) +
            (out.getD i ts0).travel_duration ∧
        (out.getD i ts0).departure_time =
          (out.getD i ts0).arrival_time + (stops.getD i stop0).service_duration := by
  induction stops with
  | nil => intro pos t out h i hi; simp at hi
  | cons s ss ih =>
    intro pos t out h i hi
    cases hc : s.coordinates with
    | none => simp only [propagateGo, hc] at h; cases h
    | some c =>
      simp only [propagateGo, hc] at h
      cases hrec : propagateGo v c (t + dist pos c / v + s.service_duration) ss with
      | error e => simp only [hrec] at h; cases h
      | ok rest =>
        simp only [hrec] at h
        cases h
        cases i with
        | zero => simp [List.getD_cons_zero, hc]
        | succ j =>
          have hj : j < ss.length := by simpa using hi
          have IH := ih c (t + dist pos c / v + s.service_duration) rest hrec j hj
          simp only [List.getD_cons_succ, Nat.succ_sub_one, Nat.succ_ne_zero, if_false]
          cases j with
          | zero => simpa using IH
          | succ k => simpa using IH

theorem mem_violationsOf (l : List TimedStop) (a : ℕ) :
    a ∈ violationsOf l ↔
      ∃ ts ∈ l, ts.job_id = a ∧ ∃ T, ts.window_end = some T ∧ T < ts.arrival_time := by
  unfold violationsOf
  rw [List.mem_filterMap]
  constructor
  · rintro ⟨ts, hts, h⟩
    cases hw : ts.window_end with
    | none => simp only [hw] at h; cases h
    | some T =>
      simp only [hw] at h
      by_cases hT : T < ts.arrival_time
      · rw [if_pos hT] at h
        exact ⟨ts, hts, by injection h, T, hw, hT⟩
      · rw [if_neg hT] at h; cases h
  · rintro ⟨ts, hts, hid, T, hw, hT⟩
    exact ⟨ts, hts, by simp only [hw, if_pos hT, hid]⟩

theorem eq_getD_of_nodup_job (l : List TimedStop) (i : ℕ) (hi : i < l.length)
    (hn : (l.map TimedStop.job_id).Nodup) (ts : TimedStop) (hts : ts ∈ l)
    (hid : ts.job_id = (l.getD i ts0).job_id) : ts = l.getD i ts0 := by
  obtain ⟨j, hj, hget⟩ := List.mem_iff_getElem.mp hts
  have hj2 : j < (l.map TimedStop.job_id).length := by simpa using hj
  have hi2 : i < (l.map TimedStop.job_id).length := by simpa using hi
  have heq : (l.map TimedStop.job_id)[j] = (l.map TimedStop.job_id)[i] := by
    rw [List.getElem_map, List.getElem_map, hget, hid, List.getD_eq_getElem l ts0 hi]
  have hji : j = i := (List.Nodup.getElem_inj_iff hn).mp heq
  subst hji
  rw [List.getD_eq_getElem l ts0 hi]
  exact hget.symm

theorem propagate_ok_elim (stops : List Stop) (start : Coord) (t0 v : ℚ) (q : Sequence)
    (h : propagate stops start t0 v = .ok q) :
    ¬ v ≤ 0 ∧ propagateGo v start t0 stops = .ok q.stops ∧
      q.violations = violationsOf q.stops := by
  unfold propagate at h
  split at h
  · cases h
  · refine ⟨by assumption, ?_, ?_⟩
    · cases hg : propagateGo v start t0 stops with
      | error e => rw [hg] at h; cases h
      | ok out => rw [hg] at h; cases h; rfl
    · cases hg : propagateGo v start t0 stops with
      | error e => rw [hg] at h; cases h
      | ok out => rw [hg] at h; cases h; rfl

theorem propagate_map_job_id (stops : List Stop) (start : Coord) (t0 v : ℚ) (q : Sequence)
    (h : propagate stops start t0 v = .ok q) :
    q.stops.map TimedStop.job_id = stops.map Stop.job_id :=
  propagateGo_map_job_id v stops start t0 q.stops (propagate_ok_elim stops start t0 v q h).2.1

theorem propagate_error_missing (stops : List Stop) (start : Coord) (t0 v : ℚ)
    (e : EngineError) (hv : 0 < v) (h : propagate stops start t0 v = .error e) :
    e = .MissingCoordinate := by
  unfold propagate at h
  rw [if_neg (not_le.mpr hv)] at h
  cases hg : propagateGo v start t0 stops with
  | error e2 => rw [hg] at h; cases h; exact propagateGo_error_missing v stops start t0 e hg
  | ok l => rw [hg] at h; cases h

theorem propagate_ok_of_coords (stops : List Stop) (start : Coord) (t0 v : ℚ)
    (hv : 0 < v) (hc : ∀ s ∈ stops, s.coordinates.isSome) :
    ∃ q, propagate stops start t0 v = .ok q := by
  unfold propagate
  rw [if_neg (not_le.mpr hv)]
  obtain ⟨out, hout⟩ := propagateGo_ok_of_coords v stops hc start t0
  rw [hout]
  exact ⟨_, rfl⟩

theorem sequence_error_cases (stops : List Stop) (start : Coord) (strategy : Strategy)
    (solver : Option (List ℕ)) (e : EngineError)
    (h : sequence stops start strategy solver = .error e) :
    e = .MissingCoordinate ∨ e = .DuplicateStopId := by
  unfold sequence at h
  split at h
  · cases h; left; rfl
  · split at h
    · cases h; right; rfl
    · cases h

/-! Claim theorems. -/

/-- C1: for every stop list S, start coordinate and strategy, a
successful output of `sequence(S, start, strategy)` is a permutation of
S — it carries exactly the same multiset of `job_id`s as S, with no
stop dropped, none duplicated and none added. -/
theorem sequence_permutation (stops : List Stop) (start : Coord) (strategy : Strategy)
    (solver : Option (List ℕ)) (res : SeqResult)
    (h : sequence stops start strategy solver = .ok res) :
    List.Perm (res.stops.map Stop.job_id) (stops.map Stop.job_id) ∧
      ((res.stops.map Stop.job_id : List ℕ) : Multiset ℕ) =
        ((stops.map Stop.job_id : List ℕ) : Multiset ℕ) := by
  unfold sequence at h
  split at h
  · cases h
  · split at h
    · cases h
    · cases h
      constructor
      · exact List.Perm.map _ (runStrategy_perm stops start strategy solver)
      · exact Multiset.coe_eq_coe.mpr (List.Perm.map _ (runStrategy_perm stops start strategy solver))

/-- Witness for C1 at a concrete two-stop input under the
nearest-neighbor strategy. -/
theorem sequence_permutation_witness :
    List.Perm ((SeqResult.mk [stopB, stopA] "nearest").stops.map Stop.job_id)
        ([stopA, stopB].map Stop.job_id) ∧
      (((SeqResult.mk [stopB, stopA] "nearest").stops.map Stop.job_id : List ℕ) : Multiset ℕ) =
        (([stopA, stopB].map Stop.job_id : List ℕ) : Multiset ℕ) :=
  sequence_permutation [stopA, stopB] depot .nearest none ⟨[stopB, stopA], "nearest"⟩
    (by norm_num [sequence, runStrategy, nnRoute, nnRouteAux, nnPick, stopKey, stopCoord,
      dist, absQ, stopA, stopB, depot])

/-- C5: for all coordinate pairs A, B and every speed v > 0,
`travelTime` succeeds, its distance component is symmetric in A and B,
and the returned duration equals distance divided by speed. -/
theorem travelTime_symm (a b : Coord) (v : ℚ) (hv : 0 < v) :
    travelTime (some a) (some b) v = .ok (dist a b, dist a b / v) ∧
    travelTime (some b) (some a) v = .ok (dist b a, dist b a / v) ∧
    dist a b = dist b a := by
  refine ⟨?_, ?_, ?_⟩
  · simp [travelTime, not_le.mpr hv]
  · simp [travelTime, not_le.mpr hv]
  · exact dist_symm a b

/-- Witness for C5 at concrete coordinates and speed 2. -/
theorem travelTime_symm_witness :
    travelTime (some ⟨0, 0⟩) (some ⟨1, 2⟩) 2 = .ok (dist ⟨0, 0⟩ ⟨1, 2⟩, dist ⟨0, 0⟩ ⟨1, 2⟩ / 2) ∧
    travelTime (some ⟨1, 2⟩) (some ⟨0, 0⟩) 2 = .ok (dist ⟨1, 2⟩ ⟨0, 0⟩, dist ⟨1, 2⟩ ⟨0, 0⟩ / 2) ∧
    dist ⟨0, 0⟩ ⟨1, 2⟩ = dist ⟨1, 2⟩ ⟨0, 0⟩ :=
  travelTime_symm ⟨0, 0⟩ ⟨1, 2⟩ 2 (by norm_num)

/-- C8 counterexample: the claim quantifies over every speed v, but at
speed 0 the propagator rejects the computation with `InvalidSpeed`
(speed ≤ 0 is rejected before any computation begins, §7), so the empty
stop list does not yield an empty Sequence there. -/
theorem propagate_empty_counterexample :
    propagate [] depot 0 0 = .error .InvalidSpeed := by
  norm_num [propagate]

/-- C8 (amended): for every start coordinate, start time t0 and speed
v > 0, `propagate([], start, t0, v)` succeeds and returns a Sequence
with zero stops, total travel distance 0, total travel time 0 and an
empty violation set. -/
theorem propagate_empty (start : Coord) (t0 v : ℚ) (hv : 0 < v) :
    propagate [] start t0 v = .ok ⟨[], [], 0, 0⟩ := by
  unfold propagate
  rw [if_neg (not_le.mpr hv)]
  rfl

/-- Witness for the amended C8 at speed 1. -/
theorem propagate_empty_witness :
    propagate [] depot 0 1 = .ok ⟨[], [], 0, 0⟩ :=
  propagate_empty depot 0 1 (by norm_num)

/-- C9 counterexample: the itinerary client's algorithm parameter takes
the values "nearest" and "ortools" (initial state line 88 and the two
buttons, lines 256 and 263), not "nearest" and "optimal": "optimal" is
never sent, and requesting the solver sends algorithm=ortools together
with use_ortools=true. -/
theorem client_algorithm_counterexample :
    "optimal" ∉ algorithmOptions ∧ "ortools" ∈ algorithmOptions ∧
    (buildRequest DEFAULT_SPEED "ortools" true false).algorithm = "ortools" ∧
    (buildRequest DEFAULT_SPEED "ortools" true false).use_ortools = true := by decide

/-- C9 (amended): every request the client builds carries the algorithm
state unchanged, which takes exactly the values "nearest" or "ortools",
with `use_ortools=true` exactly for "ortools"; each rendered stop
carries `job_id, customer_name, lat, lon, arrival_iso, departure_iso,
distance_from_prev_km` (the `ClientStop` shape) rather than the §6
field names. -/
theorem client_request_shape (alg : String) (h : alg ∈ algorithmOptions)
    (v : ℚ) (u f : Bool) :
    (buildRequest v alg u f).algorithm = alg ∧
    ((buildRequest v alg u f).use_ortools = true ↔ alg = "ortools") ∧
    (alg = "nearest" ∨ alg = "ortools") := by
  refine ⟨rfl, by simp [buildRequest], ?_⟩
  simp only [algorithmOptions, List.mem_cons, List.mem_singleton] at h
  simpa using h

/-- Witness for the amended C9 at algorithm "ortools". -/
theorem client_request_shape_witness :
    (buildRequest 40 "ortools" true false).algorithm = "ortools" ∧
    ((buildRequest 40 "ortools" true false).use_ortools = true ↔ ("ortools" : String) = "ortools") ∧
    (("ortools" : String) = "nearest" ∨ ("ortools" : String) = "ortools") :=
  client_request_shape "ortools" (by decide) 40 true false

/-- C10: the itinerary client substitutes the default speed 40 exactly
when the entered value parses to 0 or NaN, and otherwise sends
`speed_kmph` unchanged — in particular a negative entered speed is sent
to the API as-is, so the client never enforces speed > 0 itself. -/
theorem client_speed_handling (x : ℚ) (alg : String) (u f : Bool) (hx : x ≠ 0) :
    onChangeSpeed none = DEFAULT_SPEED ∧
    onChangeSpeed (some 0) = DEFAULT_SPEED ∧
    onChangeSpeed (some x) = x ∧
    (buildRequest (onChangeSpeed (some x)) alg u f).speed_kmph = x := by
  refine ⟨rfl, rfl, ?_, ?_⟩
  · simp [onChangeSpeed, hx]
  · simp [onChangeSpeed, buildRequest, hx]

/-- C2: in every Sequence produced by the propagator (over stops with
distinct job_ids, as the engine validates), a stop's job_id is in the
Violation set if and only if its window_end is present and the computed
arrival_time is strictly greater than it; in particular a stop with no
window_end never yields a violation. -/
theorem propagate_violation_iff (stops : List Stop) (start : Coord) (t0 v : ℚ)
    (q : Sequence) (i : ℕ) (h : propagate stops start t0 v = .ok q)
    (hn : (stops.map Stop.job_id).Nodup) (hi : i < stops.length) :
    (stops.getD i stop0).job_id ∈ q.violations ↔
      ∃ T, (stops.getD i stop0).window_end = some T ∧
        T < (q.stops.getD i ts0).arrival_time := by
  obtain ⟨hv, hg, hviol⟩ := propagate_ok_elim stops start t0 v q h
  obtain ⟨-, hid, -, hwe, -⟩ := propagateGo_spec v stops start t0 q.stops hg i hi
  have hlen : q.stops.length = stops.length := propagateGo_length v stops start t0 q.stops hg
  have hilen : i < q.stops.length := by rw [hlen]; exact hi
  have hnout : (q.stops.map TimedStop.job_id).Nodup := by
    rw [propagateGo_map_job_id v stops start t0 q.stops hg]
    exact hn
  rw [hviol]
  constructor
  · intro hmem
    rw [mem_violationsOf] at hmem
    obtain ⟨ts, hts, hidts, T, hw, hT⟩ := hmem
    have hts_eq : ts = q.stops.getD i ts0 :=
      eq_getD_of_nodup_job q.stops i hilen hnout ts hts (by rw [hidts, ← hid])
    subst hts_eq
    exact ⟨T, by rw [← hwe]; exact hw, hT⟩
  · rintro ⟨T, hw, hT⟩
    rw [mem_violationsOf]
    refine ⟨q.stops.getD i ts0, ?_, hid, T, ?_, hT⟩
    · rw [List.getD_eq_getElem q.stops ts0 hilen]
      exact List.getElem_mem hilen
    · rw [hwe]
      exact hw

/-- Witness for C2 at the concrete two-stop input: stop A (window end
1, arrival 2) is in the Violation set of the computed Sequence. -/
theorem propagate_violation_iff_witness :
    (([stopA, stopB].getD 0 stop0).job_id ∈ qAB.violations ↔
      ∃ T, ([stopA, stopB].getD 0 stop0).window_end = some T ∧
        T < (qAB.stops.getD 0 ts0).arrival_time) :=
  propagate_violation_iff [stopA, stopB] depot 0 1 qAB 0
    (by norm_num [propagate, propagateGo, violationsOf, List.filterMap_cons, dist, absQ, stopA,
      stopB, depot, qAB])
    (by decide) (by decide)

/-- C3: the nearest-neighbor strategy is the greedy recurrence —
starting at the start coordinate it picks, from the remaining stops, the
one with minimum travel time (duration under any positive speed),
breaking ties by input order (the chosen stop is preceded in the input
only by strictly farther stops), then recurses from the chosen stop on
the remaining stops; as a pure function it yields the identical order on
identical inputs. -/
theorem nnRoute_greedy (start : Coord) (stops : List Stop) (s : Stop) (ss : List Stop)
    (v : ℚ) (hv : 0 < v) (h : stops = s :: ss) :
    nnRoute start stops =
      (nnPick start s ss).1 ::
        nnRoute (stopCoord (nnPick start s ss).1) (nnPick start s ss).2 ∧
    (∀ x ∈ stops, ∀ db tb dx tx,
      travelTime (some start) (some (stopCoord (nnPick start s ss).1)) v = .ok (db, tb) →
      travelTime (some start) (some (stopCoord x)) v = .ok (dx, tx) → tb ≤ tx) ∧
    (∃ pre post, stops = pre ++ (nnPick start s ss).1 :: post ∧
      (nnPick start s ss).2 = pre ++ post ∧
      ∀ x ∈ pre, stopKey start (nnPick start s ss).1 < stopKey start x) ∧
    nnRoute start stops = nnRoute start stops := by
  subst h
  refine ⟨nnRoute_cons start s ss, ?_, nnPick_first start s ss, rfl⟩
  intro x hx db tb dx tx htb htx
  rw [travelTime, if_neg (not_le.mpr hv)] at htb htx
  simp only [Except.ok.injEq, Prod.mk.injEq] at htb htx
  rw [← htb.2, ← htx.2]
  have hmin := nnPick_min start s ss x hx
  unfold stopKey at hmin
  exact div_le_div_of_nonneg_right hmin (le_of_lt hv)

/-- Witness for C3 at the concrete two-stop input with speed 1: the
greedy step picks stop B, the nearer of the two. -/
theorem nnRoute_greedy_witness :
    nnRoute depot [stopA, stopB] =
      (nnPick depot stopA [stopB]).1 ::
        nnRoute (stopCoord (nnPick depot stopA [stopB]).1) (nnPick depot stopA [stopB]).2 ∧
    (∀ x ∈ [stopA, stopB], ∀ db tb dx tx,
      travelTime (some depot) (some (stopCoord (nnPick depot stopA [stopB]).1)) 1 = .ok (db, tb) →
      travelTime (some depot) (some (stopCoord x)) 1 = .ok (dx, tx) → tb ≤ tx) ∧
    (∃ pre post, [stopA, stopB] = pre ++ (nnPick depot stopA [stopB]).1 :: post ∧
      (nnPick depot stopA [stopB]).2 = pre ++ post ∧
      ∀ x ∈ pre, stopKey depot (nnPick depot stopA [stopB]).1 < stopKey depot x) ∧
    nnRoute depot [stopA, stopB] = nnRoute depot [stopA, stopB] :=
  nnRoute_greedy depot [stopA, stopB] stopA [stopB] 1 (by norm_num) rfl

/-- C4: the propagator computes, per stop in order, the travel leg from
the previous position (the start for the first stop), arrival time as
the previous departure time (the start time for the first stop) plus the
travel duration, and departure time as arrival plus the stop's service
duration — with the leg given by `travelTime` at the requested speed. -/
theorem propagate_recurrence (stops : List Stop) (start : Coord) (t0 v : ℚ)
    (q : Sequence) (i : ℕ) (h : propagate stops start t0 v = .ok q)
    (hi : i < stops.length) :
    (stops.getD i stop0).coordinates = some ((q.stops.getD i ts0).coordinates) ∧
    travelTime (some (if i = 0 then start else (q.stops.getD (i - 1) ts0).coordinates))
        ((stops.getD i stop0).coordinates) v =
      .ok ((q.stops.getD i ts0).distance_from_previous,
        (q.stops.getD i ts0).travel_duration) ∧
    (q.stops.getD i ts0).arrival_time =
      (if i = 0 then t0 else (q.stops.getD (i - 1) ts0).departure_time) +
        (q.stops.getD i ts0).travel_duration ∧
    (q.stops.getD i ts0).departure_time =
      (q.stops.getD i ts0).arrival_time + (stops.getD i stop0).service_duration := by
  obtain ⟨hv, hg, -⟩ := propagate_ok_elim stops start t0 v q h
  obtain ⟨hco, -, -, -, hd, hdur, harr, hdep⟩ :=
    propagateGo_spec v stops start t0 q.stops hg i hi
  refine ⟨hco, ?_, harr, hdep⟩
  rw [hco, travelTime, if_neg hv, hdur, hd]

/-- Witness for C4 at the concrete two-stop input and index 1: the
second leg runs from stop A's coordinates, departing at A's departure
time. -/
theorem propagate_recurrence_witness :
    ([stopA, stopB].getD 1 stop0).coordinates = some ((qAB.stops.getD 1 ts0).coordinates) ∧
    travelTime (some (if 1 = 0 then depot else (qAB.stops.getD (1 - 1) ts0).coordinates))
        (([stopA, stopB].getD 1 stop0).coordinates) 1 =
      .ok ((qAB.stops.getD 1 ts0).distance_from_previous,
        (qAB.stops.getD 1 ts0).travel_duration) ∧
    (qAB.stops.getD 1 ts0).arrival_time =
      (if 1 = 0 then (0 : ℚ) else (qAB.stops.getD (1 - 1) ts0).departure_time) +
        (qAB.stops.getD 1 ts0).travel_duration ∧
    (qAB.stops.getD 1 ts0).departure_time =
      (qAB.stops.getD 1 ts0).arrival_time + ([stopA, stopB].getD 1 stop0).service_duration :=
  propagate_recurrence [stopA, stopB] depot 0 1 qAB 1
    (by norm_num [propagate, propagateGo, violationsOf, List.filterMap_cons, dist, absQ, stopA,
      stopB, depot, qAB])
    (by decide)

/-- C6: when the optimal strategy is requested and the solver is
unavailable, errors or times out, the engine falls back to the
nearest-neighbor heuristic, the response is marked
`algorithm_used = "nearest"` so the substitution is disclosed, the
returned Sequence is still a permutation of the input stops, and no
error is surfaced (on validated input the result is `ok`). -/
theorem optimal_fallback (stops : List Stop) (start : Coord) (t0 v : ℚ) (hv : 0 < v)
    (hc : ∀ s ∈ stops, s.coordinates.isSome) (hn : (stops.map Stop.job_id).Nodup) :
    ∃ res, computeItinerary stops start t0 v .optimal none = .ok res ∧
      res.algorithm_used = "nearest" ∧
      List.Perm (res.optimized.stops.map TimedStop.job_id) (stops.map Stop.job_id) := by
  have hany : stops.any (fun s => s.coordinates.isNone) = false := by
    rw [List.any_eq_false]
    intro x hx
    have := hc x hx
    cases hcx : x.coordinates with
    | none => rw [hcx] at this; cases this
    | some c => simp [hcx]
  have hseq : sequence stops start .optimal none = .ok ⟨nnRoute start stops, "nearest"⟩ := by
    unfold sequence
    rw [hany]
    rw [if_neg (by simp), if_neg (not_not_intro hn)]
    rfl
  obtain ⟨cur, hcur⟩ := propagate_ok_of_coords stops start t0 v hv hc
  have hcopt : ∀ s ∈ nnRoute start stops, s.coordinates.isSome := by
    intro s hs
    exact hc s ((nnRoute_perm start stops).mem_iff.mp hs)
  obtain ⟨opt, hopt⟩ := propagate_ok_of_coords (nnRoute start stops) start t0 v hv hcopt
  refine ⟨⟨cur, opt, "nearest"⟩, ?_, rfl, ?_⟩
  · unfold computeItinerary
    rw [if_neg (not_le.mpr hv)]
    simp only [hseq, hcur, hopt]
  · have hmap : opt.stops.map TimedStop.job_id = (nnRoute start stops).map Stop.job_id :=
      propagate_map_job_id (nnRoute start stops) start t0 v opt hopt
    rw [hmap]
    exact List.Perm.map Stop.job_id (nnRoute_perm start stops)

/-- Witness for C6 at the concrete two-stop input with the solver
unavailable. -/
theorem optimal_fallback_witness :
    ∃ res, computeItinerary [stopA, stopB] depot 0 1 .optimal none = .ok res ∧
      res.algorithm_used = "nearest" ∧
      List.Perm (res.optimized.stops.map TimedStop.job_id) ([stopA, stopB].map Stop.job_id) :=
  optimal_fallback [stopA, stopB] depot 0 1 (by norm_num) (by decide) (by decide)

/-- C7: the engine rejects every speed ≤ 0 with `InvalidSpeed` before
any computation begins, and for every speed > 0 no `InvalidSpeed` error
is ever raised. -/
theorem invalid_speed_check (stops : List Stop) (start : Coord) (t0 v : ℚ)
    (strategy : Strategy) (solver : Option (List ℕ)) :
    (v ≤ 0 → computeItinerary stops start t0 v strategy solver = .error .InvalidSpeed) ∧
    (0 < v → computeItinerary stops start t0 v strategy solver ≠ .error .InvalidSpeed) := by
  constructor
  · intro hv
    unfold computeItinerary
    rw [if_pos hv]
  · intro hv
    unfold computeItinerary
    rw [if_neg (not_le.mpr hv)]
    cases hs : sequence stops start strategy solver with
    | error e =>
      dsimp only
      rcases sequence_error_cases stops start strategy solver e hs with h1 | h1 <;>
        subst h1 <;> intro hh <;> cases hh
    | ok seqd =>
      dsimp only
      cases hp : propagate stops start t0 v with
      | error e =>
        dsimp only
        have h1 := propagate_error_missing stops start t0 v e hv hp
        subst h1
        intro hh
        cases hh
      | ok cur =>
        dsimp only
        cases hp2 : propagate seqd.stops start t0 v with
        | error e2 =>
          dsimp only
          have h1 := propagate_error_missing seqd.stops start t0 v e2 hv hp2
          subst h1
          intro hh
          cases hh
        | ok opt =>
          dsimp only
          intro hh
          cases hh

/-- Witness for C7: speed 0 is rejected with `InvalidSpeed`; speed 1 is
not. -/
theorem invalid_speed_check_witness :
    computeItinerary [] depot 0 0 .nearest none = .error .InvalidSpeed ∧
    computeItinerary [] depot 0 1 .nearest none ≠ .error .InvalidSpeed :=
  ⟨(invalid_speed_check [] depot 0 0 .nearest none).1 (by norm_num),
   (invalid_speed_check [] depot 0 1 .nearest none).2 (by norm_num)⟩

/-- Witness for C10 at the negative entered speed -5: it is passed
through to the request unchanged. -/
theorem client_speed_handling_witness :
    onChangeSpeed none = DEFAULT_SPEED ∧
    onChangeSpeed (some 0) = DEFAULT_SPEED ∧
    onChangeSpeed (some (-5)) = -5 ∧
    (buildRequest (onChangeSpeed (some (-5))) "nearest" true false).speed_kmph = -5 :=
  client_speed_handling (-5) "nearest" true false (by norm_num)

end Dispatch
